import Mathlib

set_option maxRecDepth 100000

/-!
# Verification of the procedural Mondrian generator

A shallow embedding of the generative-art pipeline in `src/gen2.js` and its
sibling variant (`src/unnamed/part_000`), together with proofs and refutations
of the specification's claims about it.

Conventions of the embedding:
* JavaScript numbers are IEEE-754 binary64 values. The seeded PRNG update
  `s * 1103515245 + 12345` operates on integers far above `2^53`, where
  binary64 rounding is observable through the following `& 0x7fffffff` mask,
  so the update is modelled with explicit round-to-nearest-even at 53
  significant bits after each operation (`flNat`); the mask itself is
  `Nat.land` / `% 2^31`. Downstream geometry (coordinates, areas,
  comparisons) is modelled exactly over `ℚ`: there the double-rounding slop
  (relative error `≤ 2^-52` per operation) is negligible against the margins
  of every fact proved or refuted below.
* The ambient (non-seeded) `Math.random` source used by `createNoise` is an
  explicit stream parameter `ℕ → ℚ`, one entry per call.
* The seeded PRNG is threaded as an explicit `ℕ` state.
* Canvas drawing is modelled as the list of issued drawing commands; the
  interior of a painted rectangle / stroked line (whose path geometry uses
  transcendental functions `atan2`/`cos`/`sin`/`hypot`) is kept at the
  granularity of the call, recording the exact call arguments, while the
  pass structure of `drawLine` (stroke widths and alphas) is modelled
  separately and exactly.
-/

namespace Mondrian

attribute [local semireducible] Rat.add Rat.mul Rat.sub Rat.inv Rat.ofScientific

/-! ## Seeded PRNG (src/gen2.js:52-56, src/unnamed/part_000:32-36) -/

/-- Fuel-driven floor base-2 logarithm (`log2fuel n n` is `⌊log2 n⌋` for
`n ≥ 1`); written with explicit fuel so that it evaluates by structural
recursion. -/
def log2fuel : ℕ → ℕ → ℕ
  | 0, _ => 0
  | f + 1, n => if n < 2 then 0 else log2fuel f (n / 2) + 1

/-- Round a natural number to the nearest multiple of `2 ^ e`, ties to the
even multiple — the IEEE-754 round-to-nearest-even rule at unit `2 ^ e`. -/
def rne (x e : ℕ) : ℕ :=
  let q := x / 2 ^ e
  let r := x % 2 ^ e
  if r < 2 ^ (e - 1) then q * 2 ^ e
  else if 2 ^ (e - 1) < r then (q + 1) * 2 ^ e
  else if q % 2 = 0 then q * 2 ^ e else (q + 1) * 2 ^ e

/-- The binary64 (double) value of a nonnegative integer: exact below `2^53`,
otherwise rounded to nearest even at 53 significant bits (the unit in the
last place of `x` with `⌊log2 x⌋ = L` is `2 ^ (L - 52)`). -/
def flNat (x : ℕ) : ℕ :=
  if x < 2 ^ 53 then x else rne x (log2fuel x x - 52)

/-- One update of the LCG state: `s = (s * 1103515245 + 12345) & 0x7fffffff`
evaluated in JS doubles — the product and the sum each round to binary64
before the 31-bit mask is applied. -/
def nextState (s : ℕ) : ℕ := flNat (flNat (s * 1103515245) + 12345) &&& 0x7fffffff

/-- The value returned by `random()`: the updated state divided by `0x7fffffff`. -/
def randOut (s : ℕ) : ℚ := (nextState s : ℚ) / 0x7fffffff

/-- One call of `random()`: returned value together with the updated state. -/
def rand (s : ℕ) : ℚ × ℕ := (randOut s, nextState s)

/-! ## 1D gradient noise (src/gen2.js:3-19, identical in src/unnamed/part_000:3-19) -/

/-- `fade = t => t * t * t * (t * (t * 6 - 15) + 10)` (src/gen2.js:11). -/
def fade (t : ℚ) : ℚ := t * t * t * (t * (t * 6 - 15) + 10)

/-- `lerp = (t, a, b) => a + t * (b - a)` (src/gen2.js:12). -/
def lerp (t a b : ℚ) : ℚ := a + t * (b - a)

/-- `grad = (hash, x) => (hash & 1 ? x : -x)` (src/gen2.js:13). -/
def grad (h : ℕ) (x : ℚ) : ℚ := if h % 2 = 1 then x else -x

/-- One Fisher-Yates step: `j = Math.floor(r * (i + 1))` followed by the swap
`[perm[i], perm[j]] = [perm[j], perm[i]]` (src/gen2.js:7-8). -/
def fyStep (r : ℚ) (i : ℕ) (p : List ℕ) : List ℕ :=
  let j := (⌊r * ((i : ℚ) + 1)⌋).toNat
  let pi := p.getD i 0
  let pj := p.getD j 0
  (p.set i pj).set j pi

/-- The shuffle loop `for (let i = 255; i > 0; i--)` (src/gen2.js:6-9); the
`k`-th call of `Math.random` is stream entry `k`, i.e. entry `255 - i` at
counter value `i`. -/
def fyLoop (r : ℕ → ℚ) : ℕ → List ℕ → List ℕ
  | 0, p => p
  | i + 1, p => fyLoop r i (fyStep (r (255 - (i + 1))) (i + 1) p)

/-- The shuffled permutation table built by `createNoise` from the identity
table `perm[i] = i` (src/gen2.js:4-9). -/
def permTable (r : ℕ → ℚ) : List ℕ := fyLoop r 255 (List.range 256)

/-- The sampler returned by `createNoise`, over an arbitrary doubled table `p`:
`X = Math.floor(x) & 255; x -= Math.floor(x);
 lerp(fade(x), grad(p[X], x), grad(p[X + 1], x - 1))` (src/gen2.js:14-18).
The JS `& 255` applies to the 32-bit value of `Math.floor(x)` and equals the
nonnegative remainder `⌊x⌋ % 256`. -/
def noiseP (p : List ℕ) (x : ℚ) : ℚ :=
  let X := (⌊x⌋ % 256).toNat
  let f := x - ⌊x⌋
  lerp (fade f) (grad (p.getD X 0) f) (grad (p.getD (X + 1) 0) (f - 1))

/-- `createNoise`: shuffle with the ambient `Math.random` stream `r`, double
the table (`p = [...perm, ...perm]`, src/gen2.js:10), return the sampler. -/
def createNoise (r : ℕ → ℚ) : ℚ → ℚ :=
  let perm := permTable r
  noiseP (perm ++ perm)

/-! ## Colors and pick (src/gen2.js:60-68) -/

/-- `pick = arr => arr[Math.floor(random() * arr.length)]` (src/gen2.js:68).
The JS expression is `undefined` (here `none`) when the index reaches
`arr.length`. -/
def pick (arr : List String) (s : ℕ) : Option String × ℕ :=
  let (r, s') := rand s
  (arr.get? (⌊r * (arr.length : ℚ)⌋).toNat, s')

/-- The weighted color-category list (src/gen2.js:309). -/
def colorKeys : List String :=
  ["red", "yellow", "blue", "red", "yellow", "blue", "black", "lightBlue"]

/-! ## Layout data -/

/-- A line segment `{x1, y1, x2, y2, t}` as pushed onto `lines`. -/
structure Line where
  x1 : ℚ
  y1 : ℚ
  x2 : ℚ
  y2 : ℚ
  t : ℚ
deriving DecidableEq

/-- A color block `{x, y, w, h, col}` as pushed onto `blocks`. -/
structure Block where
  x : ℚ
  y : ℚ
  w : ℚ
  h : ℚ
  col : String
deriving DecidableEq

/-! ## Line tiers -/

/-- One long/structural line (src/gen2.js:260-273). -/
def genLongLine (W H : ℚ) (s : ℕ) : Line × ℕ :=
  let (rv, s1) := rand s
  let (rt, s2) := rand s1
  let thickness := 2.5 + rt * 4
  if rv > 0.5 then
    let (rx, s3) := rand s2
    let x := 60 + rx * (W - 120)
    let (r1, s4) := rand s3
    let (y1, s5) :=
      if r1 > 0.3 then ((-20 : ℚ), s4)
      else
        let (r, s') := rand s4
        (50 + r * 150, s')
    let (r2, s6) := rand s5
    let (y2, s7) :=
      if r2 > 0.3 then (H + 20, s6)
      else
        let (r, s') := rand s6
        (H - 50 - r * 150, s')
    ({ x1 := x, y1 := y1, x2 := x, y2 := y2, t := thickness }, s7)
  else
    let (ry, s3) := rand s2
    let y := 60 + ry * (H - 120)
    let (r1, s4) := rand s3
    let (x1, s5) :=
      if r1 > 0.3 then ((-20 : ℚ), s4)
      else
        let (r, s') := rand s4
        (50 + r * 150, s')
    let (r2, s6) := rand s5
    let (x2, s7) :=
      if r2 > 0.3 then (W + 20, s6)
      else
        let (r, s') := rand s6
        (W - 50 - r * 150, s')
    ({ x1 := x1, y1 := y, x2 := x2, y2 := y, t := thickness }, s7)

/-- One medium line (src/gen2.js:277-289, identical in src/unnamed/part_000:163-176). -/
def genMedLine (W H : ℚ) (s : ℕ) : Line × ℕ :=
  let (rv, s1) := rand s
  let (rt, s2) := rand s1
  let thickness := 2 + rt * 3
  let (rl, s3) := rand s2
  let length := 80 + rl * 200
  if rv > 0.5 then
    let (rx, s4) := rand s3
    let x := 30 + rx * (W - 60)
    let (ry, s5) := rand s4
    let y := ry * (H - length)
    ({ x1 := x, y1 := y, x2 := x, y2 := y + length, t := thickness }, s5)
  else
    let (ry, s4) := rand s3
    let y := 30 + ry * (H - 60)
    let (rx, s5) := rand s4
    let x := rx * (W - length)
    ({ x1 := x, y1 := y, x2 := x + length, y2 := y, t := thickness }, s5)

/-- One short accent line (src/gen2.js:293-305, identical in src/unnamed/part_000:181-195). -/
def genShortLine (W H : ℚ) (s : ℕ) : Line × ℕ :=
  let (rv, s1) := rand s
  let (rt, s2) := rand s1
  let thickness := 1.5 + rt * 2.5
  let (rl, s3) := rand s2
  let length := 30 + rl * 80
  if rv > 0.5 then
    let (rx, s4) := rand s3
    let x := 20 + rx * (W - 40)
    let (ry, s5) := rand s4
    let y := ry * (H - length)
    ({ x1 := x, y1 := y, x2 := x, y2 := y + length, t := thickness }, s5)
  else
    let (ry, s4) := rand s3
    let y := 20 + ry * (H - 40)
    let (rx, s5) := rand s4
    let x := rx * (W - length)
    ({ x1 := x, y1 := y, x2 := x + length, y2 := y, t := thickness }, s5)

/-- One tiny dash (src/unnamed/part_000:199-212; the gen2 variant has no dash tier). -/
def genDashLine (W H : ℚ) (s : ℕ) : Line × ℕ :=
  let (rv, s1) := rand s
  let (rt, s2) := rand s1
  let thickness := 1 + rt * 2
  let (rl, s3) := rand s2
  let length := 15 + rl * 40
  if rv > 0.5 then
    let (rx, s4) := rand s3
    let x := rx * W
    let (ry, s5) := rand s4
    let y := ry * (H - length)
    ({ x1 := x, y1 := y, x2 := x, y2 := y + length, t := thickness }, s5)
  else
    let (ry, s4) := rand s3
    let y := ry * H
    let (rx, s5) := rand s4
    let x := rx * (W - length)
    ({ x1 := x, y1 := y, x2 := x + length, y2 := y, t := thickness }, s5)

/-- A `for (let i = 0; i < n; i++) lines.push(...)` loop over a per-line
generator, in generation (push) order. -/
def linesLoop (step : ℕ → Line × ℕ) : ℕ → ℕ → List Line × ℕ
  | 0, s => ([], s)
  | n + 1, s =>
    ((step s).1 :: (linesLoop step n (step s).2).1, (linesLoop step n (step s).2).2)

/-- `numLongLines = 2 + Math.floor(random() * 2)` then the loop (src/gen2.js:259-274). -/
def genLongLines (W H : ℚ) (s : ℕ) : List Line × ℕ :=
  let (r, s1) := rand s
  linesLoop (genLongLine W H) (2 + (⌊r * 2⌋).toNat) s1

/-- `numMedLines = 3 + Math.floor(random() * 3)` then the loop (src/gen2.js:276-290). -/
def genMedLines (W H : ℚ) (s : ℕ) : List Line × ℕ :=
  let (r, s1) := rand s
  linesLoop (genMedLine W H) (3 + (⌊r * 3⌋).toNat) s1

/-- `numShortLines = 4 + Math.floor(random() * 5)` then the loop (src/gen2.js:292-306). -/
def genShortLines (W H : ℚ) (s : ℕ) : List Line × ℕ :=
  let (r, s1) := rand s
  linesLoop (genShortLine W H) (4 + (⌊r * 5⌋).toNat) s1

/-- `numDashes = 2 + Math.floor(random() * 4)` then the loop (src/unnamed/part_000:198-213). -/
def genDashLines (W H : ℚ) (s : ℕ) : List Line × ℕ :=
  let (r, s1) := rand s
  linesLoop (genDashLine W H) (2 + (⌊r * 4⌋).toNat) s1

/-! ## Block placement (src/gen2.js:310-327, src/unnamed/part_000:217-241) -/

/-- `ox = Math.max(0, Math.min(x + w, b.x + b.w) - Math.max(x, b.x))` (src/gen2.js:322). -/
def overlapX (a b : Block) : ℚ := max 0 (min (a.x + a.w) (b.x + b.w) - max a.x b.x)

/-- `oy = Math.max(0, Math.min(y + h, b.y + b.h) - Math.max(y, b.y))` (src/gen2.js:323). -/
def overlapY (a b : Block) : ℚ := max 0 (min (a.y + a.h) (b.y + b.h) - max a.y b.y)

/-- Intersection area `ox * oy` of two blocks. -/
def interArea (a b : Block) : ℚ := overlapX a b * overlapY a b

/-- The rejection test `ox * oy > w * h * threshold` against the candidate's
own area `w * h` (src/gen2.js:324 with 0.6; src/unnamed/part_000:232 with 0.7). -/
def overlapB (thr : ℚ) (cand b : Block) : Bool :=
  decide (interArea cand b > cand.w * cand.h * thr)

/-- One candidate block of the gen2 variant (src/gen2.js:314-318). -/
def genBlockCand2 (W H : ℚ) (s : ℕ) : Block × ℕ :=
  let (rw, s1) := rand s
  let w := 50 + rw * 130
  let (rh, s2) := rand s1
  let h := 50 + rh * 130
  let (rx, s3) := rand s2
  let x := 15 + rx * (W - w - 30)
  let (ry, s4) := rand s3
  let y := 15 + ry * (H - h - 30)
  let (rc, s5) := rand s4
  let col := colorKeys.getD (⌊rc * (colorKeys.length : ℚ)⌋).toNat ""
  ({ x := x, y := y, w := w, h := h, col := col }, s5)

/-- One candidate block of the part_000 variant (src/unnamed/part_000:221-225). -/
def genBlockCandB (W H : ℚ) (s : ℕ) : Block × ℕ :=
  let (rw, s1) := rand s
  let w := 40 + rw * 140
  let (rh, s2) := rand s1
  let h := 40 + rh * 140
  let (rx, s3) := rand s2
  let x := 20 + rx * (W - w - 40)
  let (ry, s4) := rand s3
  let y := 20 + ry * (H - h - 40)
  let (rc, s5) := rand s4
  let col := colorKeys.getD (⌊rc * (colorKeys.length : ℚ)⌋).toNat ""
  ({ x := x, y := y, w := w, h := h, col := col }, s5)

/-- The candidate loop: draw a candidate, scan the accepted blocks for an
overlap exceeding the threshold fraction of the candidate's area, and push
the candidate only when no accepted block trips the test
(src/gen2.js:313-327). -/
def blocksLoop (step : ℕ → Block × ℕ) (thr : ℚ) : ℕ → List Block → ℕ → List Block × ℕ
  | 0, acc, s => (acc, s)
  | n + 1, acc, s =>
    blocksLoop step thr n
      (if acc.any (overlapB thr (step s).1) then acc else acc ++ [(step s).1])
      ((step s).2)

/-- `numBlocks = 10 + Math.floor(random() * 8)` and the gen2 block loop with
threshold 0.6 (src/gen2.js:310-327). -/
def genBlocks2 (W H : ℚ) (s : ℕ) : List Block × ℕ :=
  let (r, s1) := rand s
  blocksLoop (genBlockCand2 W H) 0.6 (10 + (⌊r * 8⌋).toNat) [] s1

/-- `numBlocks = 10 + Math.floor(random() * 8)` and the part_000 block loop
with threshold 0.7 (src/unnamed/part_000:217-241). -/
def genBlocksB (W H : ℚ) (s : ℕ) : List Block × ℕ :=
  let (r, s1) := rand s
  blocksLoop (genBlockCandB W H) 0.7 (10 + (⌊r * 8⌋).toNat) [] s1

/-! ## drawLine pass structure (src/gen2.js:225-254, src/unnamed/part_000:63-92) -/

/-- Stroke widths of the three passes of the gen2 `drawLine`:
`ctx.lineWidth = thickness * (1 - stroke * 0.15)` for `stroke = 0, 1, 2`
(src/gen2.js:236). -/
def drawLineWidthsA (thickness : ℚ) : List ℚ :=
  (List.range 3).map fun stroke => thickness * (1 - (stroke : ℚ) * 0.15)

/-- Stroke alphas of the three passes of `drawLine`: the first pass uses the
fully opaque color `'#0a0a0a'` (alpha 1), the later passes use
`rgba(20,15,10, 0.25 - stroke * 0.08)` (src/gen2.js:235, src/unnamed/part_000:73). -/
def drawLineAlphas : List ℚ :=
  (List.range 3).map fun stroke => if stroke = 0 then 1 else 0.25 - (stroke : ℚ) * 0.08

/-- Stroke widths of the three passes of the part_000 `drawLine`:
`ctx.lineWidth = thickness * (1 - stroke * 0.15) + random() * 0.3`
(src/unnamed/part_000:74), after the `off = random() * 1000` draw
(src/unnamed/part_000:66). -/
def drawLineWidthsB (thickness : ℚ) (s : ℕ) : List ℚ × ℕ :=
  let (_off, s0) := rand s
  let (r0, s1) := rand s0
  let (r1, s2) := rand s1
  let (r2, s3) := rand s2
  ([thickness * (1 - 0 * 0.15) + r0 * 0.3,
    thickness * (1 - 1 * 0.15) + r1 * 0.3,
    thickness * (1 - 2 * 0.15) + r2 * 0.3], s3)

/-! ## The gen2 `generate` pass as a command sequence (src/gen2.js:45-335) -/

/-- A drawing command issued to the canvas context, at the granularity used by
the top level of `generate`: plain filled rectangles carry their fill color /
alpha and geometry; a `paintRect` or `drawLine` call is recorded with its
exact arguments (its interior stroke geometry uses transcendental math and is
modelled separately where a claim needs it). -/
inductive Cmd where
  | fillRect (color : String) (alpha : ℚ) (x y w h : ℚ)
  | paintRect (b : Block)
  | line (l : Line)
deriving DecidableEq

/-- Alpha of one weave-texture cell:
`v = (noise(x * 0.1) * noise(y * 0.1) + 1) * 0.5` and fill style
`rgba(0,0,0, v * 0.03)` (src/gen2.js:77-78). -/
def weaveAlpha (noise : ℚ → ℚ) (x y : ℕ) : ℚ :=
  (noise ((x : ℚ) * 0.1) * noise ((y : ℚ) * 0.1) + 1) * 0.5 * 0.03

/-- The canvas-weave texture loop `for (y = 0; y < H; y += 2) for (x = 0; x < W; x += 2)`
(src/gen2.js:75-81). -/
def weaveCmds (noise : ℚ → ℚ) (W H : ℕ) : List Cmd :=
  ((List.range ((H + 1) / 2)).map (2 * ·)).flatMap fun y =>
    ((List.range ((W + 1) / 2)).map (2 * ·)).map fun x =>
      Cmd.fillRect "rgba(0,0,0)" (weaveAlpha noise x y) (x : ℚ) (y : ℚ) 2 2

/-- The layout computed by the gen2 `generate` from the seeded PRNG
(src/gen2.js:256-327): the three line tiers in push order, then the blocks,
each phase continuing from the PRNG state the previous phase left. -/
def layout2 (W H : ℚ) (seed : ℕ) : List Line × List Block :=
  let (longs, s1) := genLongLines W H seed
  let (meds, s2) := genMedLines W H s1
  let (shorts, s3) := genShortLines W H s2
  let (blocks, _s4) := genBlocks2 W H s3
  (longs ++ meds ++ shorts, blocks)

/-- The command sequence issued by one call of the gen2 `generate`
(src/gen2.js:45-335): abort if the canvas is unavailable (line 46-47);
otherwise fill the background (71-72), draw the weave texture (75-81),
generate the three line tiers and the blocks from the seeded PRNG (256-327),
then paint every block (330) and stroke every line (333). The noise table is
built once from the ambient `Math.random` stream `mr` (line 58). -/
def generateCmds (canvas : Option (ℕ × ℕ)) (seed : ℕ) (mr : ℕ → ℚ) : List Cmd :=
  match canvas with
  | none => []
  | some (Wn, Hn) =>
    Cmd.fillRect "#f8f5ef" 1 0 0 (Wn : ℚ) (Hn : ℚ) ::
      (weaveCmds (createNoise mr) Wn Hn ++
        (layout2 (Wn : ℚ) (Hn : ℚ) seed).2.map Cmd.paintRect ++
        (layout2 (Wn : ℚ) (Hn : ℚ) seed).1.map Cmd.line)

/-! ## Concrete ambient streams for the noise-table refutation -/

/-- An ambient `Math.random` stream (all entries in `[0, 1)`) under which the
Fisher-Yates pass leaves `perm` almost alone: it swaps exactly `perm[1]` and
`perm[2]` (at `i = 2`, stream index 253, the draw `1/3` gives `j = 1`; every
other draw `i/(i+1)` gives `j = i`). -/
def mrSwap : ℕ → ℚ :=
  fun k => if k = 253 then 1 / 3 else ((255 - k : ℕ) : ℚ) / ((256 - k : ℕ) : ℚ)

/-- An ambient `Math.random` stream (all entries in `[0, 1)`) under which every
Fisher-Yates draw gives `j = i`, so the table stays the identity permutation. -/
def mrId : ℕ → ℚ := fun _ => 255 / 256

/-! ## PRNG lemmas -/

theorem log2fuel_bracket :
    ∀ f n, 1 ≤ n → n ≤ f → 2 ^ log2fuel f n ≤ n ∧ n < 2 ^ (log2fuel f n + 1) := by
  intro f
  induction f with
  | zero =>
    intro n h1 h2
    omega
  | succ f ih =>
    intro n h1 h2
    rw [log2fuel]
    by_cases hn : n < 2
    · rw [if_pos hn]
      simp only [pow_zero, pow_one]
      omega
    · rw [if_neg hn]
      obtain ⟨ha, hb⟩ := ih (n / 2) (by omega) (by omega)
      have hp1 : 2 ^ (log2fuel f (n / 2) + 1) = 2 ^ log2fuel f (n / 2) * 2 := pow_succ 2 _
      have hp2 : 2 ^ (log2fuel f (n / 2) + 1 + 1) = 2 ^ (log2fuel f (n / 2) + 1) * 2 :=
        pow_succ 2 _
      omega

theorem rne_eq_mul (x e : ℕ) : ∃ m, x / 2 ^ e ≤ m ∧ rne x e = m * 2 ^ e := by
  unfold rne
  by_cases h1 : x % 2 ^ e < 2 ^ (e - 1)
  · rw [if_pos h1]
    exact ⟨_, le_rfl, rfl⟩
  · rw [if_neg h1]
    by_cases h2 : 2 ^ (e - 1) < x % 2 ^ e
    · rw [if_pos h2]
      exact ⟨_, Nat.le_succ _, rfl⟩
    · rw [if_neg h2]
      by_cases h3 : x / 2 ^ e % 2 = 0
      · rw [if_pos h3]
        exact ⟨_, le_rfl, rfl⟩
      · rw [if_neg h3]
        exact ⟨_, Nat.le_succ _, rfl⟩

theorem flNat_of_lt {x : ℕ} (h : x < 2 ^ 53) : flNat x = x := if_pos h

theorem log2fuel_ge_53 {x : ℕ} (h : 2 ^ 53 ≤ x) : 53 ≤ log2fuel x x := by
  obtain ⟨-, hb⟩ := log2fuel_bracket x x (by omega) le_rfl
  by_contra hc
  push_neg at hc
  have hmono : (2 : ℕ) ^ (log2fuel x x + 1) ≤ 2 ^ 53 :=
    Nat.pow_le_pow_right (by norm_num) (by omega)
  omega

theorem flNat_even_of_ge {x : ℕ} (h : 2 ^ 53 ≤ x) : 2 ∣ flNat x := by
  rw [flNat, if_neg (not_lt.mpr h)]
  obtain ⟨m, -, hm⟩ := rne_eq_mul x (log2fuel x x - 52)
  rw [hm]
  have he : log2fuel x x - 52 ≠ 0 := by
    have := log2fuel_ge_53 h
    omega
  exact (dvd_pow_self 2 he).mul_left m

theorem flNat_ge_of_ge {x : ℕ} (h : 2 ^ 53 ≤ x) : 2 ^ 53 ≤ flNat x := by
  rw [flNat, if_neg (not_lt.mpr h)]
  have hL := log2fuel_ge_53 h
  obtain ⟨ha, -⟩ := log2fuel_bracket x x (by omega) le_rfl
  obtain ⟨m, hq, hm⟩ := rne_eq_mul x (log2fuel x x - 52)
  rw [hm]
  have hsplit : 2 ^ log2fuel x x = 2 ^ 52 * 2 ^ (log2fuel x x - 52) := by
    rw [← pow_add]
    congr 1
    omega
  have hq52 : 2 ^ 52 ≤ x / 2 ^ (log2fuel x x - 52) :=
    (Nat.le_div_iff_mul_le (Nat.pos_pow_of_pos _ (by norm_num))).mpr (by omega)
  calc 2 ^ 53 ≤ 2 ^ log2fuel x x := Nat.pow_le_pow_right (by norm_num) hL
    _ = 2 ^ 52 * 2 ^ (log2fuel x x - 52) := hsplit
    _ ≤ m * 2 ^ (log2fuel x x - 52) :=
        Nat.mul_le_mul_right _ (le_trans hq52 hq)

theorem land_mask_eq_mod (x : ℕ) : x &&& 0x7fffffff = x % 2 ^ 31 := by
  have hm : (0x7fffffff : ℕ) = 2 ^ 31 - 1 := by norm_num
  rw [hm]
  apply Nat.eq_of_testBit_eq
  intro i
  rw [Nat.testBit_land, Nat.testBit_mod_two_pow, Nat.testBit_two_pow_sub_one, Bool.and_comm]

theorem nextState_eq_mod (s : ℕ) :
    nextState s = flNat (flNat (s * 1103515245) + 12345) % 2 ^ 31 :=
  land_mask_eq_mod _

theorem nextState_lt (s : ℕ) : nextState s < 2 ^ 31 := by
  rw [nextState_eq_mod]
  exact Nat.mod_lt _ (by norm_num)

theorem mod_sub_step {a : ℕ} (h : (a + 12345) % 2 ^ 31 = 2 ^ 31 - 1) :
    a % 2 ^ 31 = 2 ^ 31 - 1 - 12345 := by
  omega

/-- The exact-arithmetic preimage fact behind the 1-is-unreachable argument:
the only residue mod `2^31` whose exact LCG image is `2^31 - 1` is
230538014. -/
theorem lcg_exact_preimage {s : ℕ} (h : (s * 1103515245 + 12345) % 2 ^ 31 = 2 ^ 31 - 1) :
    s % 2 ^ 31 = 230538014 := by
  have h1 : (s * 1103515245) % 2 ^ 31 = 2 ^ 31 - 1 - 12345 := mod_sub_step h
  have h2 : (230538014 * 1103515245) % 2 ^ 31 = 2 ^ 31 - 1 - 12345 := by norm_num
  have hme : Nat.ModEq (2 ^ 31) (s * 1103515245) (230538014 * 1103515245) :=
    h1.trans h2.symm
  have hcop : Nat.gcd (2 ^ 31) 1103515245 = 1 := by decide
  have hs : Nat.ModEq (2 ^ 31) s 230538014 := Nat.ModEq.cancel_right_of_coprime hcop hme
  have hfin : s % 2 ^ 31 = 230538014 % 2 ^ 31 := hs
  have hred : (230538014 : ℕ) % 2 ^ 31 = 230538014 := by norm_num
  rw [hfin, hred]

/-- `random()` never produces the state `2^31 - 1` (and hence never returns
exactly 1): an odd masked result would force both roundings to be exact
(below `2^53`), which pins `s ≡ 230538014 (mod 2^31)`, incompatible with the
exactness bound `s * 1103515245 < 2^53`. -/
theorem nextState_ne_max (s : ℕ) : nextState s ≠ 2 ^ 31 - 1 := by
  intro hmax
  rw [nextState_eq_mod] at hmax
  have hsum_lt : flNat (s * 1103515245) + 12345 < 2 ^ 53 := by
    by_contra hge
    obtain ⟨k, hk⟩ := flNat_even_of_ge (le_of_not_lt hge)
    have hd := Nat.mod_mod_of_dvd (flNat (flNat (s * 1103515245) + 12345))
      (by norm_num : (2 : ℕ) ∣ 2 ^ 31)
    rw [hmax] at hd
    have hpar : flNat (flNat (s * 1103515245) + 12345) % 2 = 1 := by
      rw [← hd]
      norm_num
    rw [hk, Nat.mul_mod_right] at hpar
    exact absurd hpar (by decide)
  have hu_eq : flNat (flNat (s * 1103515245) + 12345) = flNat (s * 1103515245) + 12345 :=
    flNat_of_lt hsum_lt
  have ht_lt : s * 1103515245 < 2 ^ 53 := by
    by_contra hge
    have hge2 := flNat_ge_of_ge (le_of_not_lt hge)
    exact absurd hsum_lt (not_lt.mpr (le_trans hge2 (Nat.le_add_right _ 12345)))
  have ht_eq : flNat (s * 1103515245) = s * 1103515245 := flNat_of_lt ht_lt
  rw [hu_eq, ht_eq] at hmax
  have hs_mod := lcg_exact_preimage hmax
  have hge : 230538014 ≤ s := by
    by_contra hlt
    push_neg at hlt
    rw [Nat.mod_eq_of_lt (lt_trans hlt (by norm_num))] at hs_mod
    exact absurd (hs_mod ▸ hlt) (lt_irrefl _)
  have hmul : 230538014 * 1103515245 ≤ s * 1103515245 :=
    Nat.mul_le_mul_right _ hge
  have hbig : (2 : ℕ) ^ 53 < 230538014 * 1103515245 := by norm_num
  exact absurd ht_lt (not_lt.mpr (le_trans hbig.le hmul))

theorem nextState_le (s : ℕ) : nextState s ≤ 2 ^ 31 - 2 := by
  have h1 := nextState_lt s
  have h2 := nextState_ne_max s
  omega

theorem randOut_nonneg (s : ℕ) : 0 ≤ randOut s := by
  unfold randOut
  positivity

theorem randOut_lt_one (s : ℕ) : randOut s < 1 := by
  unfold randOut
  rw [div_lt_one (by norm_num)]
  have h := nextState_le s
  have h2 : nextState s < 2147483647 := by omega
  exact_mod_cast h2

theorem randOut_le_one (s : ℕ) : randOut s ≤ 1 := (randOut_lt_one s).le

/-! ## Noise range and periodicity lemmas -/

theorem fade_nonneg {t : ℚ} (h0 : 0 ≤ t) : 0 ≤ fade t := by
  have hq : (0 : ℚ) ≤ 6 * t ^ 2 - 15 * t + 10 := by nlinarith [sq_nonneg (2 * t - 5 / 2)]
  have he : fade t = t ^ 3 * (6 * t ^ 2 - 15 * t + 10) := by unfold fade; ring
  rw [he]
  exact mul_nonneg (by positivity) hq

theorem fade_le_one {t : ℚ} (h0 : 0 ≤ t) (h1 : t ≤ 1) : fade t ≤ 1 := by
  have he : 1 - fade t = (1 - t) ^ 3 * (6 * t ^ 2 + 3 * t + 1) := by unfold fade; ring
  have f1 : (0 : ℚ) ≤ (1 - t) ^ 3 := pow_nonneg (by linarith) 3
  have f2 : (0 : ℚ) ≤ 6 * t ^ 2 + 3 * t + 1 := by positivity
  have h := mul_nonneg f1 f2
  linarith [he ▸ h]

theorem lerp_grad_bounds {φ f a b : ℚ} (hφ0 : 0 ≤ φ) (hφ1 : φ ≤ 1)
    (hf0 : 0 ≤ f) (hf1 : f < 1)
    (ha : a = f ∨ a = -f) (hb : b = f - 1 ∨ b = -(f - 1)) :
    -1 ≤ lerp φ a b ∧ lerp φ a b ≤ 1 := by
  have k1 := mul_nonneg hφ0 hf0
  have k2 := mul_nonneg hφ0 (by linarith : (0 : ℚ) ≤ 1 - f)
  have k3 := mul_nonneg (by linarith : (0 : ℚ) ≤ 1 - φ) hf0
  have k4 := mul_nonneg (by linarith : (0 : ℚ) ≤ 1 - φ) (by linarith : (0 : ℚ) ≤ 1 - f)
  unfold lerp
  rcases ha with rfl | rfl <;> rcases hb with rfl | rfl <;>
    exact ⟨by nlinarith [k1, k2, k3, k4], by nlinarith [k1, k2, k3, k4]⟩

theorem noiseP_mem_Icc (p : List ℕ) (x : ℚ) : -1 ≤ noiseP p x ∧ noiseP p x ≤ 1 := by
  have hle := Int.floor_le x
  have hlt := Int.lt_floor_add_one x
  have hf0 : (0 : ℚ) ≤ x - ⌊x⌋ := by linarith
  have hf1 : x - (⌊x⌋ : ℚ) < 1 := by linarith
  unfold noiseP
  dsimp only
  refine lerp_grad_bounds (fade_nonneg hf0) (fade_le_one hf0 hf1.le) hf0 hf1 ?_ ?_
  · unfold grad
    split
    · exact Or.inl rfl
    · exact Or.inr rfl
  · unfold grad
    split
    · exact Or.inl rfl
    · exact Or.inr rfl

theorem noiseP_periodic (p : List ℕ) (x : ℚ) : noiseP p (x + 256) = noiseP p x := by
  have h1 : ⌊x + (256 : ℚ)⌋ = ⌊x⌋ + 256 := by
    rw [show ((256 : ℚ)) = ((256 : ℤ) : ℚ) by norm_num, Int.floor_add_int]
  have h2 : (⌊x⌋ + 256) % 256 = ⌊x⌋ % 256 := by omega
  have h3 : x + 256 - ((⌊x⌋ + 256 : ℤ) : ℚ) = x - ⌊x⌋ := by push_cast; ring
  unfold noiseP
  rw [h1, h2, h3]

/-! ## Layout bound predicates -/

/-- All four endpoints of a line lie inside the default 600 x 600 canvas. -/
def lineInCanvas (l : Line) : Prop :=
  0 ≤ l.x1 ∧ l.x1 ≤ 600 ∧ 0 ≤ l.y1 ∧ l.y1 ≤ 600 ∧
  0 ≤ l.x2 ∧ l.x2 ≤ 600 ∧ 0 ≤ l.y2 ∧ l.y2 ≤ 600

/-- A block rectangle lies inside the default 600 x 600 canvas. -/
def blockInCanvas (b : Block) : Prop :=
  0 ≤ b.x ∧ b.x + b.w ≤ 600 ∧ 0 ≤ b.y ∧ b.y + b.h ≤ 600

/-! ## Loop lemmas -/

theorem linesLoop_mem {P : Line → Prop} (step : ℕ → Line × ℕ)
    (hstep : ∀ s, P (step s).1) :
    ∀ n s, ∀ l ∈ (linesLoop step n s).1, P l := by
  intro n
  induction n with
  | zero =>
    intro s l hl
    simp [linesLoop] at hl
  | succ n ih =>
    intro s l hl
    rw [linesLoop] at hl
    rcases List.mem_cons.mp hl with h | h
    · exact h ▸ hstep s
    · exact ih _ l h

theorem blocksLoop_mem {P : Block → Prop} (step : ℕ → Block × ℕ) (thr : ℚ)
    (hstep : ∀ s, P (step s).1) :
    ∀ n acc s, (∀ b ∈ acc, P b) → ∀ b ∈ (blocksLoop step thr n acc s).1, P b := by
  intro n
  induction n with
  | zero =>
    intro acc s hacc b hb
    exact hacc b hb
  | succ n ih =>
    intro acc s hacc b hb
    rw [blocksLoop] at hb
    refine ih _ _ ?_ b hb
    intro c hc
    by_cases h : acc.any (overlapB thr (step s).1)
    · rw [if_pos h] at hc
      exact hacc c hc
    · rw [if_neg h] at hc
      rcases List.mem_append.mp hc with h1 | h1
      · exact hacc c h1
      · rw [List.mem_singleton.mp h1]
        exact hstep s

theorem interArea_comm (a b : Block) : interArea a b = interArea b a := by
  unfold interArea overlapX overlapY
  rw [min_comm (a.x + a.w), max_comm a.x, min_comm (a.y + a.h), max_comm a.y]

theorem blocksLoop_pairwise (step : ℕ → Block × ℕ) (thr : ℚ) :
    ∀ n acc s, List.Pairwise (fun a b => interArea a b ≤ b.w * b.h * thr) acc →
      List.Pairwise (fun a b => interArea a b ≤ b.w * b.h * thr)
        (blocksLoop step thr n acc s).1 := by
  intro n
  induction n with
  | zero =>
    intro acc s h
    exact h
  | succ n ih =>
    intro acc s h
    rw [blocksLoop]
    apply ih
    by_cases hany : acc.any (overlapB thr (step s).1)
    · rw [if_pos hany]
      exact h
    · rw [if_neg hany]
      rw [List.pairwise_append]
      refine ⟨h, List.pairwise_singleton _ _, ?_⟩
      intro a ha c hc
      rw [List.mem_singleton.mp hc]
      have hfalse : overlapB thr (step s).1 a = false := by
        rcases Bool.eq_false_or_eq_true (overlapB thr (step s).1 a) with ht | hf
        · exact absurd (List.any_eq_true.mpr ⟨a, ha, ht⟩) hany
        · exact hf
      have hnot : ¬ interArea (step s).1 a > (step s).1.w * (step s).1.h * thr :=
        of_decide_eq_false hfalse
      rw [interArea_comm]
      linarith [not_lt.mp hnot]

/-! ## Per-candidate bounds at the default 600 x 600 canvas -/

theorem genMedLine_inCanvas (s : ℕ) : lineInCanvas (genMedLine 600 600 s).1 := by
  unfold genMedLine
  simp only [rand]
  split
  all_goals
    unfold lineInCanvas
    dsimp only
    refine ⟨?_, ?_, ?_, ?_, ?_, ?_, ?_, ?_⟩ <;>
      nlinarith [randOut_nonneg s, randOut_le_one s,
        randOut_nonneg (nextState s), randOut_le_one (nextState s),
        randOut_nonneg (nextState (nextState s)), randOut_le_one (nextState (nextState s)),
        randOut_nonneg (nextState (nextState (nextState s))),
        randOut_le_one (nextState (nextState (nextState s))),
        randOut_nonneg (nextState (nextState (nextState (nextState s)))),
        randOut_le_one (nextState (nextState (nextState (nextState s))))]

theorem genShortLine_inCanvas (s : ℕ) : lineInCanvas (genShortLine 600 600 s).1 := by
  unfold genShortLine
  simp only [rand]
  split
  all_goals
    unfold lineInCanvas
    dsimp only
    refine ⟨?_, ?_, ?_, ?_, ?_, ?_, ?_, ?_⟩ <;>
      nlinarith [randOut_nonneg s, randOut_le_one s,
        randOut_nonneg (nextState s), randOut_le_one (nextState s),
        randOut_nonneg (nextState (nextState s)), randOut_le_one (nextState (nextState s)),
        randOut_nonneg (nextState (nextState (nextState s))),
        randOut_le_one (nextState (nextState (nextState s))),
        randOut_nonneg (nextState (nextState (nextState (nextState s)))),
        randOut_le_one (nextState (nextState (nextState (nextState s))))]

theorem genDashLine_inCanvas (s : ℕ) : lineInCanvas (genDashLine 600 600 s).1 := by
  unfold genDashLine
  simp only [rand]
  split
  all_goals
    unfold lineInCanvas
    dsimp only
    refine ⟨?_, ?_, ?_, ?_, ?_, ?_, ?_, ?_⟩ <;>
      nlinarith [randOut_nonneg s, randOut_le_one s,
        randOut_nonneg (nextState s), randOut_le_one (nextState s),
        randOut_nonneg (nextState (nextState s)), randOut_le_one (nextState (nextState s)),
        randOut_nonneg (nextState (nextState (nextState s))),
        randOut_le_one (nextState (nextState (nextState s))),
        randOut_nonneg (nextState (nextState (nextState (nextState s)))),
        randOut_le_one (nextState (nextState (nextState (nextState s))))]

theorem genBlockCand2_inCanvas (s : ℕ) : blockInCanvas (genBlockCand2 600 600 s).1 := by
  unfold genBlockCand2
  simp only [rand]
  unfold blockInCanvas
  dsimp only
  refine ⟨?_, ?_, ?_, ?_⟩ <;>
    nlinarith [randOut_nonneg s, randOut_le_one s,
      randOut_nonneg (nextState s), randOut_le_one (nextState s),
      randOut_nonneg (nextState (nextState s)), randOut_le_one (nextState (nextState s)),
      randOut_nonneg (nextState (nextState (nextState s))),
      randOut_le_one (nextState (nextState (nextState s)))]

theorem genBlockCandB_inCanvas (s : ℕ) : blockInCanvas (genBlockCandB 600 600 s).1 := by
  unfold genBlockCandB
  simp only [rand]
  unfold blockInCanvas
  dsimp only
  refine ⟨?_, ?_, ?_, ?_⟩ <;>
    nlinarith [randOut_nonneg s, randOut_le_one s,
      randOut_nonneg (nextState s), randOut_le_one (nextState s),
      randOut_nonneg (nextState (nextState s)), randOut_le_one (nextState (nextState s)),
      randOut_nonneg (nextState (nextState (nextState s))),
      randOut_le_one (nextState (nextState (nextState s)))]

/-! ## Claim theorems -/

/-- C10 (confirmed): if the target canvas is unavailable, `generate` returns
immediately as a no-op — no drawing command is issued at all
(src/gen2.js:46-47). -/
theorem generate_noop_without_canvas (seed : ℕ) (mr : ℕ → ℚ) :
    generateCmds none seed mr = [] := rfl

/-- C2 (amended): each `random()` call updates the state to the binary64
(double) evaluation of `(s * 1103515245 + 12345) & 0x7fffffff` — the product
and sum each round to 53 significant bits, so the update is *not* exact
integer arithmetic (it coincides with the exact formula only while
`s * 1103515245 + 12345 < 2^53`) — and returns `s' / (2^31 - 1)`, which does
lie in `[0, 1)`: the updated state never equals `2^31 - 1`, so 1 is never
returned. -/
theorem prng_next_spec (s : ℕ) :
    nextState s = flNat (flNat (s * 1103515245) + 12345) % 2 ^ 31 ∧
    nextState s ≠ 2 ^ 31 - 1 ∧
    0 ≤ randOut s ∧ randOut s < 1 :=
  ⟨nextState_eq_mod s, nextState_ne_max s, randOut_nonneg s, randOut_lt_one s⟩

/-- C2 counterexample: at state 230538014 — the unique residue whose *exact*
LCG image mod `2^31` is `2^31 - 1` — the product `230538014 * 1103515245`
exceeds `2^53` and rounds in binary64, so the code's updated state is 0, not
the exact-arithmetic value `2^31 - 1`: the state update is not computed in
exact integer arithmetic. -/
theorem prng_update_rounds_at_230538014 :
    nextState 230538014 = 0 ∧
    (230538014 * 1103515245 + 12345) % 2 ^ 31 = 2 ^ 31 - 1 ∧
    nextState 230538014 ≠ (230538014 * 1103515245 + 12345) % 2 ^ 31 := by
  refine ⟨?_, ?_, ?_⟩ <;> decide

/-- C9 (confirmed): the noise sampler is periodic with period 256: adding 256
leaves the cell index `floor(x) & 255` and the fractional part unchanged. -/
theorem noise_periodic_256 (r : ℕ → ℚ) (x : ℚ) :
    createNoise r (x + 256) = createNoise r x := by
  unfold createNoise
  exact noiseP_periodic _ x

/-- C8 (confirmed): for every permutation table produced by the construction
and every input, the noise value is a fade-weighted interpolation of two
gradients of magnitude at most 1, so it lies in `[-1, 1]` (hence inside the
claimed approximate range `[-1.1, 1.1]`). -/
theorem noise_sample_range (r : ℕ → ℚ) (x : ℚ) :
    -1 ≤ createNoise r x ∧ createNoise r x ≤ 1 := by
  unfold createNoise
  exact noiseP_mem_Icc _ x

/-- C5 (confirmed): for every non-empty list and every PRNG state, the draw is
strictly below 1 (the updated state never reaches `2^31 - 1`), so the index
`floor(random() * length)` is always in range and `pick` returns an element of
the list. -/
theorem pick_always_in_list (arr : List String) (s : ℕ) (hne : arr ≠ []) :
    ∃ a, (pick arr s).1 = some a ∧ a ∈ arr := by
  have h0 : 0 ≤ randOut s := randOut_nonneg s
  have h1 : randOut s < 1 := randOut_lt_one s
  have hlen : 0 < arr.length := List.length_pos.mpr hne
  have hfl : ⌊randOut s * (arr.length : ℚ)⌋ < (arr.length : ℤ) := by
    apply Int.floor_lt.mpr
    push_cast
    calc randOut s * (arr.length : ℚ) < 1 * (arr.length : ℚ) :=
          mul_lt_mul_of_pos_right h1 (by exact_mod_cast hlen)
      _ = (arr.length : ℚ) := one_mul _
  have hge : 0 ≤ ⌊randOut s * (arr.length : ℚ)⌋ :=
    Int.floor_nonneg.mpr (by positivity)
  have hidx : (⌊randOut s * (arr.length : ℚ)⌋).toNat < arr.length := by omega
  refine ⟨arr.get ⟨_, hidx⟩, ?_, List.get_mem _ _ _⟩
  show (pick arr s).1 = _
  simp [pick, rand, List.get?_eq_get hidx]

/-- Witness for C5's theorem at a concrete input. -/
theorem pick_always_in_list_witness :
    ∃ a, (pick ["a"] 0).1 = some a ∧ a ∈ ["a"] :=
  pick_always_in_list ["a"] 0 (by decide)

/-- C4 (amended): `generate` performs no dimension validation whatsoever: for
every width and height — including zero — it proceeds directly to drawing,
issuing the background fill as its first command; the only guard is the
canvas-availability check. -/
theorem generate_no_dimension_check (Wn Hn seed : ℕ) (mr : ℕ → ℚ) :
    (generateCmds (some (Wn, Hn)) seed mr).head? =
      some (Cmd.fillRect "#f8f5ef" 1 0 0 (Wn : ℚ) (Hn : ℚ)) := rfl

/-- C4 counterexample: with width = height = 0 (≤ 0), `generate` raises no
error and does not reject the input: it draws — the issued command list is
non-empty and starts with the background fill. -/
theorem generate_draws_at_zero_size :
    generateCmds (some (0, 0)) 1 (fun _ => 0) ≠ [] ∧
    (generateCmds (some (0, 0)) 1 (fun _ => 0)).head? =
      some (Cmd.fillRect "#f8f5ef" 1 0 0 0 0) := by
  have hh : (generateCmds (some (0, 0)) 1 (fun _ => 0)).head? =
      some (Cmd.fillRect "#f8f5ef" 1 0 0 0 0) := rfl
  refine ⟨?_, hh⟩
  intro h
  rw [h] at hh
  exact Option.noConfusion hh

/-- C1 (code bug): the noise permutation table is shuffled with the ambient,
non-seeded `Math.random` (src/gen2.js:7), so two calls of `generate` with the
same seed and canvas size can issue different drawing commands when the
ambient source behaves differently: under the two valid ambient streams
`mrSwap` and `mrId` (all draws in `[0, 1)`) the weave-texture alpha at cell
(2, 2) differs, so the raster output is not pixel-identical. -/
theorem generate_output_depends_on_ambient_randomness :
    generateCmds (some (4, 4)) 0 mrSwap ≠ generateCmds (some (4, 4)) 0 mrId := by
  decide

/-- C7 (amended): `drawLine` renders exactly 3 stroke passes in both variants,
with strictly decreasing alpha (1, 0.17, 0.09); the width is strictly
decreasing in the gen2 variant for every positive thickness, but the part_000
variant adds a per-pass random jitter of up to 0.3 to the width, so strict
width decrease can fail there. -/
theorem drawLine_three_passes (t : ℚ) (s : ℕ) (ht : 0 < t) :
    drawLineAlphas = [1, 0.17, 0.09] ∧
    List.Chain' (· > ·) drawLineAlphas ∧
    (drawLineWidthsA t).length = 3 ∧
    List.Chain' (· > ·) (drawLineWidthsA t) ∧
    ((drawLineWidthsB t s).1).length = 3 := by
  have ha : drawLineAlphas = [1, 0.17, 0.09] := by decide
  have hw : drawLineWidthsA t =
      [t * (1 - (0 : ℚ) * 0.15), t * (1 - (1 : ℚ) * 0.15), t * (1 - (2 : ℚ) * 0.15)] := by
    simp [drawLineWidthsA, List.range_succ]
  refine ⟨ha, ?_, ?_, ?_, ?_⟩
  · rw [ha]
    simp only [List.chain'_cons, List.chain'_singleton, and_true]
    norm_num
  · rw [hw]
    rfl
  · rw [hw]
    simp only [List.chain'_cons, List.chain'_singleton, and_true]
    constructor <;> nlinarith
  · simp [drawLineWidthsB]

/-- Witness for C7's amended theorem at thickness 3 and PRNG state 0. -/
theorem drawLine_three_passes_witness :
    drawLineAlphas = [1, 0.17, 0.09] ∧
    List.Chain' (· > ·) drawLineAlphas ∧
    (drawLineWidthsA 3).length = 3 ∧
    List.Chain' (· > ·) (drawLineWidthsA 3) ∧
    ((drawLineWidthsB 3 0).1).length = 3 :=
  drawLine_three_passes 3 0 (by norm_num)

/-- C7 counterexample: in the part_000 variant, at thickness 1 (attainable in
the dash tier) and entry PRNG state 5, the first pass (width ≈ 1.0774) is
narrower than the second (width ≈ 1.1191): the width jitter `random() * 0.3`
outweighs the `0.15 * thickness` step, so the line width is not strictly
decreasing across the 3 passes. -/
theorem drawLineB_width_not_decreasing :
    ((drawLineWidthsB 1 5).1).length = 3 ∧
    (drawLineWidthsB 1 5).1.getD 0 0 < (drawLineWidthsB 1 5).1.getD 1 0 := by
  constructor
  · decide
  · decide

/-- C3 (amended): the rejection test compares the intersection against the
*candidate's own* area (`ox * oy > w * h * threshold` with `w, h` the new
block's), not against the smaller of the two areas; hence for every run and
every pair of accepted blocks, the intersection is at most the threshold
fraction (0.6 gen2 variant, 0.7 part_000 variant) of the *later* block's
area. -/
theorem blocks_overlap_vs_later_area (W H : ℚ) (s : ℕ) :
    List.Pairwise (fun a b => interArea a b ≤ b.w * b.h * 0.6) (genBlocks2 W H s).1 ∧
    List.Pairwise (fun a b => interArea a b ≤ b.w * b.h * 0.7) (genBlocksB W H s).1 := by
  constructor
  · unfold genBlocks2
    simp only [rand]
    exact blocksLoop_pairwise _ _ _ _ _ List.Pairwise.nil
  · unfold genBlocksB
    simp only [rand]
    exact blocksLoop_pairwise _ _ _ _ _ List.Pairwise.nil

/-- C3 counterexample: in the gen2 `generate` run with seed 0 on the default
600 x 600 canvas, some accepted pair of blocks intersects in more than 0.6 of
the *smaller* block's area (a later, larger block may swallow most of an
earlier, smaller one — the test only bounds the overlap against the later
block's own area). -/
theorem blocks_min_area_rule_violated :
    ¬ List.Pairwise (fun a b => interArea a b ≤ min (a.w * a.h) (b.w * b.h) * 0.6)
      (layout2 600 600 0).2 := by
  decide

/-- C6 (confirmed): on the default 600 x 600 canvas every accepted block of
either variant lies entirely inside the canvas (hence inside any margin
extension), and every medium, short and dash tier segment has both endpoints
inside `[0, 600] × [0, 600]`; only the long/structural tier can place
endpoints (±20 outside) beyond the canvas. -/
theorem bounds_containment_600 (s : ℕ) :
    ((genBlocks2 600 600 s).1).Forall blockInCanvas ∧
    ((genBlocksB 600 600 s).1).Forall blockInCanvas ∧
    ((genMedLines 600 600 s).1).Forall lineInCanvas ∧
    ((genShortLines 600 600 s).1).Forall lineInCanvas ∧
    ((genDashLines 600 600 s).1).Forall lineInCanvas := by
  refine ⟨?_, ?_, ?_, ?_, ?_⟩
  · rw [List.forall_iff_forall_mem]
    unfold genBlocks2
    simp only [rand]
    exact blocksLoop_mem _ _ genBlockCand2_inCanvas _ _ _
      (fun b hb => absurd hb (List.not_mem_nil b))
  · rw [List.forall_iff_forall_mem]
    unfold genBlocksB
    simp only [rand]
    exact blocksLoop_mem _ _ genBlockCandB_inCanvas _ _ _
      (fun b hb => absurd hb (List.not_mem_nil b))
  · rw [List.forall_iff_forall_mem]
    unfold genMedLines
    simp only [rand]
    exact linesLoop_mem _ genMedLine_inCanvas _ _
  · rw [List.forall_iff_forall_mem]
    unfold genShortLines
    simp only [rand]
    exact linesLoop_mem _ genShortLine_inCanvas _ _
  · rw [List.forall_iff_forall_mem]
    unfold genDashLines
    simp only [rand]
    exact linesLoop_mem _ genDashLine_inCanvas _ _

end Mondrian
